import Mathlib

/-!
# Verification of PythonAudioRoute

A shallow embedding of `src/PythonAudioRoute.py`, an audio router that mixes
an arbitrary number of capture channels (`AudioInputStrip`) into one playback
stream (`AudioRouterApp.output_callback`), with per-channel gain and a
bounded drop-oldest buffer per channel.

Samples are modelled as rationals (the code uses 32-bit floats; every claim
here is about exact structural arithmetic — zeroing, scaling, summation,
clipping — so `ℚ` is the faithful idealisation).  A block, which the code
stores as a numpy array of shape `(frames, CHANNELS)`, is modelled as a list
of frames, each frame a list of per-channel samples; numpy's `len` on such an
array is the number of frames, i.e. `List.length` of the outer list.

Stateful methods become pure functions from the object's state to its new
state (plus a returned value where the method returns one).  The external
sounddevice / Qt calls are modelled at their boundary: stream open/start
outcomes are oracle booleans, a shown error dialog is a returned flag, and
`QSlider` confines its value to the range set by `setRange(0, 100)` as the
Qt documentation specifies.
-/

/-- `SAMPLE_RATE = 44100` (line 11 of the source). -/
def SAMPLE_RATE : ℕ := 44100

/-- `BLOCK_SIZE = 1024` (line 12 of the source). -/
def BLOCK_SIZE : ℕ := 1024

/-- `CHANNELS = 2` (line 13 of the source). -/
def CHANNELS : ℕ := 2

/-- One audio sample (the code uses float32; modelled exactly as `ℚ`). -/
abbrev Sample := ℚ

/-- One frame: one sample per channel at one time instant. -/
abbrev Frame := List Sample

/-- An audio block: a list of frames.  `numpy`'s `len` of a 2-D array of
shape `(frames, CHANNELS)` is the frame count, i.e. `List.length` here. -/
abbrev Block := List Frame

/-- `np.zeros((frames, channels))`: a block of `frames` frames of
`channels` zero samples. -/
def silence (frames channels : ℕ) : Block :=
  List.replicate frames (List.replicate channels 0)

/-- `data * g`: numpy elementwise scalar multiplication of a block. -/
def scaleBlock (g : ℚ) (b : Block) : Block :=
  b.map (fun fr => fr.map (fun x => x * g))

/-- `mixed_audio += chunk`: numpy elementwise addition of two blocks of the
same shape (on equal shapes, `zipWith` of `zipWith` is exactly that). -/
def addBlock (acc chunk : Block) : Block :=
  List.zipWith (List.zipWith (· + ·)) acc chunk

/-- `np.clip(x, -1.0, 1.0)` on one sample. -/
def clipSample (x : ℚ) : ℚ := max (-1) (min 1 x)

/-- `np.clip(mixed_audio, -1.0, 1.0, out=mixed_audio)`: clip every sample. -/
def clipBlock (b : Block) : Block :=
  b.map (fun fr => fr.map clipSample)

/-- A block is well formed when every frame carries `CHANNELS` samples;
every array the program ever stores in a queue has shape `(·, CHANNELS)`
because every stream is opened with `channels=CHANNELS`. -/
def wfBlock (b : Block) : Prop := ∀ fr ∈ b, fr.length = CHANNELS

/-- State of one `AudioInputStrip` (lines 15–139): the fields set in
`__init__` that the audio path reads or writes.  `stream` is an opaque
handle id for the open `sd.InputStream`, `none` when closed;
`combo_index` is the device combo box's current index (index `0` is the
"Select Device..." entry whose user data is `None`). -/
structure AudioInputStrip where
  index : ℕ
  stream : Option ℕ
  audio_queue : List Block
  volume : ℚ
  is_active : Bool
  combo_index : ℕ
deriving Repr, DecidableEq

/-- `AudioInputStrip.__init__` (lines 20–27): no stream, empty queue of
capacity 10, volume `1.0`, inactive. -/
def newStrip (index : ℕ) : AudioInputStrip :=
  { index := index, stream := none, audio_queue := [], volume := 1,
    is_active := false, combo_index := 0 }

/-- Every queued block of the strip is well formed. -/
def wfStrip (s : AudioInputStrip) : Prop := ∀ b ∈ s.audio_queue, wfBlock b

/-- `update_volume` (lines 75–76): `self.volume = self.slider.value() / 100.0`.
The slider was configured with `setRange(0, 100)` (line 51), and Qt's
`QSlider.setValue` confines any requested value to that range, so the value
read back is the requested integer clamped to `[0, 100]`.  The function
takes the requested slider value and returns the stored volume. -/
def update_volume (requested : ℤ) : ℚ :=
  ((max 0 (min 100 requested) : ℤ) : ℚ) / 100

/-- `audio_callback` (lines 78–91), the queue part: if the queue is full
(`maxsize=10`, line 25) pop the oldest entry, then append a copy of
`indata`.  The status print is diagnostics only and does not touch state. -/
def audio_callback (audio_queue : List Block) (indata : Block) : List Block :=
  (if 10 ≤ audio_queue.length then audio_queue.drop 1 else audio_queue) ++ [indata]

/-- `stop_stream` (lines 115–123): set `is_active = False`; stop, close and
drop the stream if open; clear the queue. -/
def stop_stream (s : AudioInputStrip) : AudioInputStrip :=
  { s with is_active := false, stream := none, audio_queue := [] }

/-- `start_stream` (lines 93–113).  `device_idx` is
`self.device_combo.currentData()`; `ctor_ok` tells whether
`sd.InputStream(...)` constructs (and so opens) without raising, `start_ok`
whether the subsequent `.start()` raises, and `h` is the handle of the
opened stream.  On an exception the handler shows an error dialog and calls
`self.device_combo.setCurrentIndex(0)`; since a device was selected the
current index was nonzero, so Qt fires `currentIndexChanged`, re-entering
`start_stream` with `currentData() = None`: that call stops and closes
whatever stream was left and returns.  Returns the new state and whether an
error dialog was shown. -/
def start_stream (s : AudioInputStrip) (device_idx : Option ℕ)
    (ctor_ok start_ok : Bool) (h : ℕ) : AudioInputStrip × Bool :=
  let s1 := stop_stream s
  match device_idx with
  | none => (s1, false)
  | some _ =>
    if ctor_ok then
      let s2 := { s1 with stream := some h }
      if start_ok then ({ s2 with is_active := true }, false)
      else (stop_stream { s2 with combo_index := 0 }, true)
    else (stop_stream { s1 with combo_index := 0 }, true)

/-- `get_audio_chunk` (lines 125–134): if inactive or the queue is empty,
return `np.zeros((BLOCK_SIZE, CHANNELS))`; otherwise pop the oldest block
and return it scaled by the current volume.  Returns the new strip state
and the yielded block. -/
def get_audio_chunk (s : AudioInputStrip) : AudioInputStrip × Block :=
  if !s.is_active || s.audio_queue.isEmpty then
    (s, silence BLOCK_SIZE CHANNELS)
  else
    match s.audio_queue with
    | [] => (s, silence BLOCK_SIZE CHANNELS)
    | b :: rest => ({ s with audio_queue := rest }, scaleBlock s.volume b)

/-- Repeatedly call `get_audio_chunk` `n` times, collecting the blocks it
yields (the mixing thread does exactly this, one call per playback pass). -/
def drainChunks : ℕ → AudioInputStrip → List Block
  | 0, _ => []
  | n + 1, s => (get_audio_chunk s).2 :: drainChunks n (get_audio_chunk s).1

/-- State of the `AudioRouterApp` (lines 142–262) that the audio path and
registry operations read or write. -/
structure AudioRouterApp where
  input_strips : List AudioInputStrip
  output_stream : Option ℕ
  out_combo_index : ℕ
deriving Repr, DecidableEq

/-- `add_input_strip` (lines 198–202): create a strip whose `index` is the
current number of strips and append it to the registry. -/
def add_input_strip (app : AudioRouterApp) : AudioRouterApp :=
  { app with
    input_strips := app.input_strips ++ [newStrip app.input_strips.length] }

/-- `remove_input_strip` (lines 204–206): remove the strip at position `i`
of the registry (`list.remove` removes the identical object; positions
identify strips here since Python removes by identity). -/
def remove_input_strip (app : AudioRouterApp) (i : ℕ) : AudioRouterApp :=
  { app with input_strips := app.input_strips.eraseIdx i }

/-- One mixing-loop iteration of `output_callback` (lines 220–224): add the
chunk into the accumulator iff `len(chunk) == len(mixed_audio)`. -/
def mixStep (acc chunk : Block) : Block :=
  if chunk.length = acc.length then addBlock acc chunk else acc

/-- The chunks the strips would yield to one mixing pass. -/
def chunksOf (strips : List AudioInputStrip) : List Block :=
  strips.map (fun s => (get_audio_chunk s).2)

/-- `output_callback` (lines 208–229): start from
`np.zeros((frames, CHANNELS))`, pull one chunk from every strip, add each
size-matching chunk elementwise, clip every accumulated sample to
`[-1, 1]`, and write the result to `outdata`.  Returns the strips' new
states and the block written to the output buffer. -/
def output_callback (strips : List AudioInputStrip) (frames : ℕ) :
    List AudioInputStrip × Block :=
  let pulled := strips.map get_audio_chunk
  let mixed := pulled.foldl (fun acc p => mixStep acc p.2)
    (silence frames CHANNELS)
  (pulled.map Prod.fst, clipBlock mixed)

/-- `start_stream` as fired by strip `i`'s combo box inside the running
app: only strip `i`'s state is rewritten. -/
def app_start_stream (app : AudioRouterApp) (i : ℕ) (device_idx : Option ℕ)
    (ctor_ok start_ok : Bool) (h : ℕ) : AudioRouterApp :=
  match app.input_strips[i]? with
  | none => app
  | some s =>
    { app with
      input_strips :=
        app.input_strips.set i (start_stream s device_idx ctor_ok start_ok h).1 }

/-- `restart_output_stream` (lines 231–253): stop, close and drop any open
output stream; if no output device is selected, return; otherwise try to
construct and start an `sd.OutputStream`.  On an exception the handler
shows an error dialog and calls `self.out_combo.setCurrentIndex(0)`; the
current index was nonzero (a device was selected), so the
`currentIndexChanged` signal re-enters `restart_output_stream` with
`currentData() = None`, which closes whatever stream was left and returns.
Returns the new app state and whether an error dialog was shown. -/
def restart_output_stream (app : AudioRouterApp) (device_idx : Option ℕ)
    (ctor_ok start_ok : Bool) (h : ℕ) : AudioRouterApp × Bool :=
  let a1 := { app with output_stream := none }
  match device_idx with
  | none => (a1, false)
  | some _ =>
    if ctor_ok then
      if start_ok then ({ a1 with output_stream := some h }, false)
      else ({ a1 with output_stream := none, out_combo_index := 0 }, true)
    else ({ a1 with out_combo_index := 0 }, true)

/-- A control-thread registry operation: the "+ Add Input Source" button, or
removing strip `i` (its "Remove Input" button: `close_strip`, lines
136–139, stops the strip and has the app drop it from the registry). -/
inductive RegistryOp where
  | add : RegistryOp
  | remove : ℕ → RegistryOp
deriving Repr, DecidableEq

/-- Apply one registry operation; alongside the app we record the `index`
every created strip was assigned, in creation order. -/
def applyOp (st : AudioRouterApp × List ℕ) (op : RegistryOp) :
    AudioRouterApp × List ℕ :=
  match op with
  | .add => (add_input_strip st.1, st.2 ++ [st.1.input_strips.length])
  | .remove i => (remove_input_strip st.1 i, st.2)

/-- The app with no strips and no output stream (`__init__`, lines 143–151). -/
def initialApp : AudioRouterApp :=
  { input_strips := [], output_stream := none, out_combo_index := 0 }

/-- Run a sequence of registry operations from the initial app, recording
every created strip's `index`. -/
def runOps (ops : List RegistryOp) : AudioRouterApp × List ℕ :=
  ops.foldl applyOp (initialApp, [])

/-- A block of all-ones samples of the session's fixed shape. -/
def onesBlock : Block := List.replicate BLOCK_SIZE (List.replicate CHANNELS 1)

/-- An active strip holding one all-ones block at gain `1.0`. -/
def onesStrip : AudioInputStrip :=
  { index := 0, stream := some 0, audio_queue := [onesBlock], volume := 1,
    is_active := true, combo_index := 1 }

/-- An active strip with two small queued blocks and gain `1/2`. -/
def sampleStrip : AudioInputStrip :=
  { index := 0, stream := some 1, audio_queue := [[[1, 2]], [[3, 4]]],
    volume := 1/2, is_active := true, combo_index := 1 }

/-- An active strip with a nonzero queued block but gain `0.0`. -/
def zeroGainStrip : AudioInputStrip :=
  { index := 0, stream := some 1, audio_queue := [[[5, 6]]],
    volume := 0, is_active := true, combo_index := 1 }

/-- An app with two freshly added strips and no output stream. -/
def failApp : AudioRouterApp :=
  { input_strips := [newStrip 0, newStrip 1], output_stream := none,
    out_combo_index := 0 }

/-! ## Helper lemmas -/

theorem length_silence (f c : ℕ) : (silence f c).length = f := by
  simp [silence]

theorem wfBlock_silence (f : ℕ) : wfBlock (silence f CHANNELS) := by
  intro fr hfr
  rw [List.eq_of_mem_replicate hfr]
  simp

theorem length_mixStep (acc c : Block) : (mixStep acc c).length = acc.length := by
  unfold mixStep
  split
  · rw [addBlock, List.length_zipWith]; omega
  · rfl

theorem mixed_block_eq (strips : List AudioInputStrip) (frames : ℕ) :
    (output_callback strips frames).2
      = clipBlock ((chunksOf strips).foldl mixStep (silence frames CHANNELS)) := by
  simp only [output_callback, chunksOf, List.foldl_map]

theorem length_foldl_mixStep (chunks : List Block) (acc : Block) :
    (chunks.foldl mixStep acc).length = acc.length := by
  induction chunks generalizing acc with
  | nil => rfl
  | cons c cs ih => rw [List.foldl_cons, ih, length_mixStep]

theorem foldl_mixStep_filter (chunks : List Block) (acc : Block) (n : ℕ)
    (h : acc.length = n) :
    chunks.foldl mixStep acc
      = (chunks.filter (fun c => c.length == n)).foldl addBlock acc := by
  induction chunks generalizing acc with
  | nil => rfl
  | cons c cs ih =>
    by_cases hc : c.length = n
    · rw [List.foldl_cons, List.filter_cons_of_pos (by simpa using hc),
        List.foldl_cons]
      have hstep : mixStep acc c = addBlock acc c := by
        unfold mixStep
        rw [if_pos (by omega)]
      rw [hstep]
      exact ih (addBlock acc c) (by rw [addBlock, List.length_zipWith]; omega)
    · rw [List.foldl_cons, List.filter_cons_of_neg (by simpa using hc)]
      have hstep : mixStep acc c = acc := by
        unfold mixStep
        rw [if_neg (by omega)]
      rw [hstep]
      exact ih acc h

theorem wfBlock_addBlock {a c : Block} (ha : wfBlock a) (hc : wfBlock c) :
    wfBlock (addBlock a c) := by
  induction a generalizing c with
  | nil => intro fr h; simp [addBlock] at h
  | cons x xs ih =>
    cases c with
    | nil => intro fr h; simp [addBlock] at h
    | cons y ys =>
      intro fr h
      rw [addBlock, List.zipWith_cons_cons] at h
      rcases List.mem_cons.mp h with h | h
      · subst h
        rw [List.length_zipWith, ha x (List.mem_cons_self _ _),
          hc y (List.mem_cons_self _ _)]
        omega
      · exact ih (fun b hb => ha b (List.mem_cons_of_mem _ hb))
          (fun b hb => hc b (List.mem_cons_of_mem _ hb)) fr h

theorem wfBlock_mixStep {a c : Block} (ha : wfBlock a) (hc : wfBlock c) :
    wfBlock (mixStep a c) := by
  unfold mixStep
  split
  · exact wfBlock_addBlock ha hc
  · exact ha

theorem wfBlock_scaleBlock {b : Block} (hb : wfBlock b) (g : ℚ) :
    wfBlock (scaleBlock g b) := by
  intro fr h
  rw [scaleBlock] at h
  rcases List.mem_map.mp h with ⟨fr0, h0, rfl⟩
  rw [List.length_map]
  exact hb fr0 h0

theorem wfBlock_chunk {s : AudioInputStrip} (hs : wfStrip s) :
    wfBlock (get_audio_chunk s).2 := by
  unfold get_audio_chunk
  split
  · exact wfBlock_silence _
  · split
    · exact wfBlock_silence _
    · rename_i b rest heq
      exact wfBlock_scaleBlock (hs b (by rw [heq]; exact List.mem_cons_self _ _)) _

theorem wfBlock_foldl_mixStep {chunks : List Block} {acc : Block}
    (hacc : wfBlock acc) (hcs : ∀ c ∈ chunks, wfBlock c) :
    wfBlock (chunks.foldl mixStep acc) := by
  induction chunks generalizing acc with
  | nil => exact hacc
  | cons c cs ih =>
    rw [List.foldl_cons]
    exact ih (wfBlock_mixStep hacc (hcs c (List.mem_cons_self _ _)))
      (fun d hd => hcs d (List.mem_cons_of_mem _ hd))

theorem wfBlock_clipBlock {b : Block} (hb : wfBlock b) : wfBlock (clipBlock b) := by
  intro fr h
  rcases List.mem_map.mp h with ⟨fr0, h0, rfl⟩
  rw [List.length_map]
  exact hb fr0 h0

theorem clipSample_bounds (x : ℚ) : -1 ≤ clipSample x ∧ clipSample x ≤ 1 := by
  constructor
  · exact le_max_left _ _
  · exact max_le (by norm_num) (min_le_left _ _)

theorem foldl_audio_callback (bs : List Block) :
    List.foldl audio_callback [] bs = bs.drop (bs.length - 10) := by
  induction bs using List.reverseRecOn with
  | nil => rfl
  | append_singleton bs b ih =>
    rw [List.foldl_append, List.foldl_cons, List.foldl_nil, ih]
    by_cases hfull : 10 ≤ bs.length
    · have h1 : 10 ≤ (bs.drop (bs.length - 10)).length := by
        rw [List.length_drop]; omega
      rw [audio_callback, if_pos h1, List.drop_drop, List.length_append]
      rw [List.drop_append_eq_append_drop]
      have h2 : bs.length + [b].length - 10 - bs.length = 0 := by
        simp only [List.length_singleton]; omega
      have h3 : bs.length - 10 + 1 = bs.length + [b].length - 10 := by
        simp only [List.length_singleton]; omega
      rw [h2, h3, List.drop_zero]
    · have h0 : bs.length - 10 = 0 := by omega
      have h1 : ¬ 10 ≤ (bs.drop (bs.length - 10)).length := by
        rw [List.length_drop]; omega
      rw [audio_callback, if_neg h1, h0, List.drop_zero, List.length_append]
      have h2 : bs.length + [b].length - 10 = 0 := by
        simp only [List.length_singleton]; omega
      rw [h2, List.drop_zero]

theorem drainChunks_fifo (q : List Block) (s : AudioInputStrip)
    (hq : s.audio_queue = q) (ha : s.is_active = true) :
    drainChunks q.length s = q.map (scaleBlock s.volume) := by
  induction q generalizing s with
  | nil => rfl
  | cons b rest ih =>
    have hchunk : get_audio_chunk s
        = ({ s with audio_queue := rest }, scaleBlock s.volume b) := by
      simp [get_audio_chunk, ha, hq]
    rw [List.length_cons, drainChunks, hchunk]
    rw [ih { s with audio_queue := rest } rfl ha]
    rfl

theorem foldl_add_created (n : ℕ) (st : AudioRouterApp × List ℕ) :
    (List.foldl applyOp st (List.replicate n RegistryOp.add)).2
      = st.2 ++ (List.range n).map (fun k => st.1.input_strips.length + k)
    ∧ (List.foldl applyOp st
        (List.replicate n RegistryOp.add)).1.input_strips.length
      = st.1.input_strips.length + n := by
  induction n generalizing st with
  | zero => simp
  | succ n ih =>
    rw [List.replicate_succ', List.foldl_append, List.foldl_cons, List.foldl_nil]
    rcases ih st with ⟨hc, hl⟩
    constructor
    · show (applyOp _ RegistryOp.add).2 = _
      rw [applyOp]
      rw [hc, hl, List.range_succ, List.map_append, List.append_assoc]
      rfl
    · show (applyOp _ RegistryOp.add).1.input_strips.length = _
      rw [applyOp]
      show (add_input_strip _).input_strips.length = _
      rw [add_input_strip]
      simp only [List.length_append, List.length_singleton]
      rw [hl]
      omega

theorem eraseIdx_map_index (l : List AudioInputStrip) (i : ℕ) :
    (l.eraseIdx i).map AudioInputStrip.index
      = (l.map AudioInputStrip.index).eraseIdx i := by
  induction l generalizing i with
  | nil => rfl
  | cons x xs ih =>
    cases i with
    | zero => rfl
    | succ i => simp [List.eraseIdx, ih]

/-! ## Claim theorems -/

/-- C1: every playback callback starts from a zero accumulator of
`frames × CHANNELS`, adds the channels' chunks, and hard-clips every
accumulated sample to `[-1, 1]` before writing it out, so every sample the
callback writes lies in `[-1, 1]`; and mixing two channels each yielding an
all-ones block at gain `1.0` writes an all-`1.0` block, not `2.0`. -/
theorem output_clipped_and_two_ones_mix (strips : List AudioInputStrip)
    (frames : ℕ) :
    (∀ fr ∈ (output_callback strips frames).2, ∀ x ∈ fr, -1 ≤ x ∧ x ≤ 1)
    ∧ (output_callback [onesStrip, onesStrip] BLOCK_SIZE).2 = onesBlock := by
  constructor
  · intro fr hfr x hx
    rw [mixed_block_eq, clipBlock] at hfr
    rcases List.mem_map.mp hfr with ⟨fr0, _, rfl⟩
    rcases List.mem_map.mp hx with ⟨x0, _, rfl⟩
    exact clipSample_bounds x0
  · rw [mixed_block_eq]
    have h1 : chunksOf [onesStrip, onesStrip] = [onesBlock, onesBlock] := by
      simp [chunksOf, get_audio_chunk, onesStrip, scaleBlock]
    rw [h1, List.foldl_cons, List.foldl_cons, List.foldl_nil]
    have hm1 : mixStep (silence BLOCK_SIZE CHANNELS) onesBlock = onesBlock := by
      rw [mixStep, if_pos (by simp [silence, onesBlock])]
      rw [addBlock, silence, onesBlock, List.zipWith_replicate,
        List.zipWith_replicate]
      norm_num
    have hm2 : mixStep onesBlock onesBlock
        = List.replicate BLOCK_SIZE (List.replicate CHANNELS 2) := by
      rw [mixStep, if_pos rfl]
      rw [addBlock, onesBlock, List.zipWith_replicate, List.zipWith_replicate]
      norm_num
    rw [hm1, hm2, clipBlock, List.map_replicate, List.map_replicate, onesBlock]
    norm_num [clipSample]

/-- Witness for C1: in the two-all-ones mix, the written block contains the
all-ones frame, whose sample `1` satisfies the clip bounds. -/
theorem output_clipped_and_two_ones_mix_witness :
    List.replicate CHANNELS (1 : ℚ)
        ∈ (output_callback [onesStrip, onesStrip] BLOCK_SIZE).2
    ∧ (1 : ℚ) ∈ List.replicate CHANNELS (1 : ℚ)
    ∧ -1 ≤ (1 : ℚ) ∧ (1 : ℚ) ≤ 1 := by
  have h := output_clipped_and_two_ones_mix [onesStrip, onesStrip] BLOCK_SIZE
  have hfr : List.replicate CHANNELS (1 : ℚ)
      ∈ (output_callback [onesStrip, onesStrip] BLOCK_SIZE).2 := by
    rw [h.2]
    exact List.mem_replicate.mpr ⟨by decide, rfl⟩
  have hx : (1 : ℚ) ∈ List.replicate CHANNELS (1 : ℚ) :=
    List.mem_replicate.mpr ⟨by decide, rfl⟩
  exact ⟨hfr, hx, h.1 _ hfr 1 hx⟩

/-- C2: the capacity-10 queue drops exactly the single oldest entry before
appending when full, its length never exceeds 10, and pushing 11 blocks
into an empty queue leaves exactly the last 10, oldest first. -/
theorem queue_drop_oldest_capacity (q : List Block) (b : Block)
    (bs : List Block) :
    (q.length ≤ 10 → (audio_callback q b).length ≤ 10)
    ∧ (q.length = 10 → audio_callback q b = q.drop 1 ++ [b])
    ∧ (List.foldl audio_callback [] bs).length ≤ 10
    ∧ (bs.length = 11 → List.foldl audio_callback [] bs = bs.drop 1) := by
  refine ⟨?_, ?_, ?_, ?_⟩
  · intro hle
    by_cases hfull : 10 ≤ q.length
    · rw [audio_callback, if_pos hfull]
      simp only [List.length_append, List.length_drop, List.length_singleton]
      omega
    · rw [audio_callback, if_neg hfull]
      simp only [List.length_append, List.length_singleton]
      omega
  · intro he
    rw [audio_callback, if_pos (by omega)]
  · rw [foldl_audio_callback, List.length_drop]
    omega
  · intro h11
    rw [foldl_audio_callback, h11]

/-- Witness for C2: a full queue of ten empty blocks and a sequence of
eleven pushes, with every hypothesis discharged concretely. -/
theorem queue_drop_oldest_capacity_witness :
    (audio_callback (List.replicate 10 ([] : Block)) []).length ≤ 10
    ∧ audio_callback (List.replicate 10 ([] : Block)) []
        = (List.replicate 10 ([] : Block)).drop 1 ++ [[]]
    ∧ List.foldl audio_callback [] (List.replicate 11 ([] : Block))
        = (List.replicate 11 ([] : Block)).drop 1 :=
  ⟨(queue_drop_oldest_capacity (List.replicate 10 ([] : Block)) [] []).1
      (by decide),
   (queue_drop_oldest_capacity (List.replicate 10 ([] : Block)) [] []).2.1
      (by decide),
   (queue_drop_oldest_capacity [] [] (List.replicate 11 ([] : Block))).2.2.2
      (by decide)⟩

/-- C3: `get_audio_chunk` returns `BLOCK_SIZE × CHANNELS` silence when the
channel is inactive or its queue is empty; otherwise it pops the oldest
block and returns it scaled by the current gain; draining the whole queue
yields each pushed block exactly once, in FIFO order, each scaled by the
gain; and at gain `0.0` the yielded block is all zeros whatever the queue
holds. -/
theorem get_audio_chunk_spec (s : AudioInputStrip) (b : Block)
    (rest : List Block) :
    (s.is_active = false ∨ s.audio_queue = [] →
        get_audio_chunk s = (s, silence BLOCK_SIZE CHANNELS))
    ∧ (s.is_active = true → s.audio_queue = b :: rest →
        get_audio_chunk s
          = ({ s with audio_queue := rest }, scaleBlock s.volume b))
    ∧ (s.is_active = true →
        drainChunks s.audio_queue.length s
          = s.audio_queue.map (scaleBlock s.volume))
    ∧ (s.volume = 0 → ∀ fr ∈ (get_audio_chunk s).2, ∀ x ∈ fr, x = 0) := by
  refine ⟨?_, ?_, ?_, ?_⟩
  · rintro (h | h) <;> simp [get_audio_chunk, h]
  · intro ha hq
    simp [get_audio_chunk, ha, hq]
  · intro ha
    exact drainChunks_fifo s.audio_queue s rfl ha
  · intro hv fr hfr x hx
    unfold get_audio_chunk at hfr
    split at hfr
    · rw [List.eq_of_mem_replicate hfr] at hx
      exact List.eq_of_mem_replicate hx
    · split at hfr
      · rw [List.eq_of_mem_replicate hfr] at hx
        exact List.eq_of_mem_replicate hx
      · simp only [scaleBlock] at hfr
        rcases List.mem_map.mp hfr with ⟨fr0, _, rfl⟩
        rcases List.mem_map.mp hx with ⟨x0, _, rfl⟩
        rw [hv, mul_zero]

/-- Witness for C3: a fresh inactive strip yields silence; a concrete
active strip with two queued blocks pops the oldest scaled by its gain and
drains in FIFO order; a gain-zero strip yields a zero sample. -/
theorem get_audio_chunk_spec_witness :
    get_audio_chunk (newStrip 5) = (newStrip 5, silence BLOCK_SIZE CHANNELS)
    ∧ get_audio_chunk sampleStrip
        = ({ sampleStrip with audio_queue := [[[3, 4]]] },
           scaleBlock sampleStrip.volume [[1, 2]])
    ∧ drainChunks sampleStrip.audio_queue.length sampleStrip
        = sampleStrip.audio_queue.map (scaleBlock sampleStrip.volume)
    ∧ (0 : ℚ) = 0 := by
  refine ⟨(get_audio_chunk_spec (newStrip 5) [] []).1 (Or.inl rfl),
    (get_audio_chunk_spec sampleStrip [[1, 2]] [[[3, 4]]]).2.1 rfl rfl,
    (get_audio_chunk_spec sampleStrip [] []).2.2.1 rfl,
    (get_audio_chunk_spec zeroGainStrip [] []).2.2.2 rfl [(0 : ℚ), 0]
      (by simp [get_audio_chunk, zeroGainStrip, scaleBlock]) 0 (by decide)⟩

/-- C4: the stored gain is the requested gain clamped to `[0, 1]` (the
slider holds an integer in `[0, 100]`, so a requested gain `v/100` is
stored as its clamp to `[0, 1]`), and after any call the gain lies in
`[0, 1]`. -/
theorem update_volume_clamps (v : ℤ) :
    update_volume v = max 0 (min 1 ((v : ℚ) / 100))
    ∧ 0 ≤ update_volume v ∧ update_volume v ≤ 1 := by
  have key : update_volume v = max 0 (min 1 ((v : ℚ) / 100)) := by
    unfold update_volume
    push_cast
    rw [← max_div_div_right (by norm_num : (0:ℚ) ≤ 100),
        ← min_div_div_right (by norm_num : (0:ℚ) ≤ 100)]
    norm_num
  refine ⟨key, ?_, ?_⟩
  · rw [key]; exact le_max_left _ _
  · rw [key]
    exact max_le (by norm_num) (min_le_left _ _)

/-- C5: when opening the capture stream fails (in the constructor or in
`.start()`), the strip ends inactive with no stream handle and an empty
queue, an error dialog is shown, and no other strip of the app is
affected. -/
theorem start_stream_failure_state (s : AudioInputStrip) (d : ℕ)
    (ctor_ok start_ok : Bool) (h : ℕ) (app : AudioRouterApp) (i j : ℕ)
    (hfail : ctor_ok = false ∨ start_ok = false) :
    (start_stream s (some d) ctor_ok start_ok h).1.is_active = false
    ∧ (start_stream s (some d) ctor_ok start_ok h).1.stream = none
    ∧ (start_stream s (some d) ctor_ok start_ok h).1.audio_queue = []
    ∧ (start_stream s (some d) ctor_ok start_ok h).2 = true
    ∧ (j ≠ i →
        (app_start_stream app i (some d) ctor_ok start_ok h).input_strips[j]?
          = app.input_strips[j]?) := by
  have hframe : ∀ (a : AudioRouterApp) (k : ℕ), j ≠ k →
      (app_start_stream a k (some d) ctor_ok start_ok h).input_strips[j]?
        = a.input_strips[j]? := by
    intro a k hjk
    unfold app_start_stream
    split
    · rfl
    · exact List.getElem?_set_ne (fun he => hjk he.symm)
  rcases hfail with hf | hf <;> subst hf
  · cases start_ok <;>
      exact ⟨rfl, rfl, rfl, rfl, fun hj => hframe app i hj⟩
  · cases ctor_ok <;>
      exact ⟨rfl, rfl, rfl, rfl, fun hj => hframe app i hj⟩

/-- Witness for C5: a concrete failed open on strip 0 of a two-strip app
leaves strip 0 inactive, closed and empty, and strip 1 untouched. -/
theorem start_stream_failure_state_witness :
    (start_stream (newStrip 0) (some 3) false false 7).1.is_active = false
    ∧ (start_stream (newStrip 0) (some 3) false false 7).1.stream = none
    ∧ (start_stream (newStrip 0) (some 3) false false 7).1.audio_queue = []
    ∧ (start_stream (newStrip 0) (some 3) false false 7).2 = true
    ∧ (app_start_stream failApp 0 (some 3) false false 7).input_strips[1]?
        = failApp.input_strips[1]? := by
  have h := start_stream_failure_state (newStrip 0) 3 false false 7 failApp 0 1
    (Or.inl rfl)
  exact ⟨h.1, h.2.1, h.2.2.1, h.2.2.2.1, h.2.2.2.2 (by decide)⟩

/-- C6 counterexample: after add, add, remove-the-first, add, the strip
created last is assigned `index = 1`, which the still-live second strip
already carries — creation indices `[0, 1, 1]` are not pairwise distinct,
so an id IS reused by a later-created channel. -/
theorem index_reuse_counterexample :
    (runOps [RegistryOp.add, RegistryOp.add, RegistryOp.remove 0,
        RegistryOp.add]).2 = [0, 1, 1]
    ∧ ((runOps [RegistryOp.add, RegistryOp.add, RegistryOp.remove 0,
        RegistryOp.add]).1.input_strips.map AudioInputStrip.index) = [1, 1]
    ∧ ¬ ((runOps [RegistryOp.add, RegistryOp.add, RegistryOp.remove 0,
        RegistryOp.add]).2).Nodup := by
  refine ⟨rfl, rfl, ?_⟩
  decide

/-- C6 amended: each strip's id is assigned at creation (as the number of
strips then present) and is never mutated afterwards — an add appends a
fresh id and leaves existing ids unchanged, a remove only deletes one
entry — and as long as no channel is removed, ids `0, 1, 2, …` are all
distinct and never reused; only after a removal may a later-created
channel reuse an id. -/
theorem index_assignment_amended :
    (∀ n : ℕ, (runOps (List.replicate n RegistryOp.add)).2 = List.range n)
    ∧ (∀ n : ℕ, ((runOps (List.replicate n RegistryOp.add)).2).Nodup)
    ∧ (∀ st : AudioRouterApp × List ℕ,
        ((applyOp st RegistryOp.add).1.input_strips.map AudioInputStrip.index)
          = st.1.input_strips.map AudioInputStrip.index
            ++ [st.1.input_strips.length])
    ∧ (∀ (st : AudioRouterApp × List ℕ) (i : ℕ),
        ((applyOp st (RegistryOp.remove i)).1.input_strips.map
            AudioInputStrip.index)
          = (st.1.input_strips.map AudioInputStrip.index).eraseIdx i) := by
  have hrun : ∀ n : ℕ, (runOps (List.replicate n RegistryOp.add)).2
      = List.range n := by
    intro n
    rw [runOps]
    rcases foldl_add_created n (initialApp, []) with ⟨hc, _⟩
    rw [hc]
    simp [initialApp]
  refine ⟨hrun, ?_, ?_, ?_⟩
  · intro n
    rw [hrun n]
    exact List.nodup_range n
  · intro st
    rw [applyOp]
    show (add_input_strip _).input_strips.map _ = _
    rw [add_input_strip]
    simp [newStrip]
  · intro st i
    rw [applyOp]
    show (remove_input_strip _ _).input_strips.map _ = _
    rw [remove_input_strip]
    exact eraseIdx_map_index _ _

/-- C7: in a mixing pass a channel's chunk is added exactly when its frame
count equals the accumulator's (mismatches are skipped silently), and the
pass always completes, writing a block of exactly `frames` frames of
`CHANNELS` samples. -/
theorem mix_skips_mismatched_chunks (strips : List AudioInputStrip)
    (frames : ℕ) (hwf : ∀ s ∈ strips, wfStrip s) :
    (output_callback strips frames).2
      = clipBlock (((chunksOf strips).filter
          (fun c => c.length == frames)).foldl addBlock
            (silence frames CHANNELS))
    ∧ (output_callback strips frames).2.length = frames
    ∧ ∀ fr ∈ (output_callback strips frames).2, fr.length = CHANNELS := by
  have hchunks : ∀ c ∈ chunksOf strips, wfBlock c := by
    intro c hc
    rcases List.mem_map.mp hc with ⟨s, hs, rfl⟩
    exact wfBlock_chunk (hwf s hs)
  refine ⟨?_, ?_, ?_⟩
  · rw [mixed_block_eq,
      foldl_mixStep_filter (chunksOf strips) _ frames (length_silence _ _)]
  · rw [mixed_block_eq, clipBlock, List.length_map, length_foldl_mixStep,
      length_silence]
  · rw [mixed_block_eq]
    exact wfBlock_clipBlock (wfBlock_foldl_mixStep (wfBlock_silence _) hchunks)

/-- Witness for C7: one fresh strip, a requested frame count of 2; its
1024-frame silence chunk mismatches and is skipped, yet the pass writes a
well-formed 2-frame output. -/
theorem mix_skips_mismatched_chunks_witness :
    ((output_callback [newStrip 0] 2).2
      = clipBlock (((chunksOf [newStrip 0]).filter
          (fun c => c.length == 2)).foldl addBlock (silence 2 CHANNELS))
    ∧ (output_callback [newStrip 0] 2).2.length = 2
    ∧ ∀ fr ∈ (output_callback [newStrip 0] 2).2, fr.length = CHANNELS) :=
  mix_skips_mismatched_chunks [newStrip 0] 2
    (fun s hs => by
      rw [List.mem_singleton.mp hs]
      intro b hb
      exact absurd hb (List.not_mem_nil b))

/-- C8: `stop_stream` is idempotent — it leaves the strip inactive with an
empty queue and no stream, and a second call from that state changes
nothing and raises nothing. -/
theorem stop_stream_idempotent (s : AudioInputStrip) :
    stop_stream (stop_stream s) = stop_stream s
    ∧ (stop_stream s).is_active = false
    ∧ (stop_stream s).audio_queue = []
    ∧ (stop_stream s).stream = none :=
  ⟨rfl, rfl, rfl, rfl⟩

/-- C9: when opening the playback stream fails, the mixer ends with no open
playback stream, an error dialog is shown, and every input strip's state is
left exactly as it was. -/
theorem restart_output_failure_state (app : AudioRouterApp) (d h : ℕ)
    (ctor_ok start_ok : Bool) (hfail : ctor_ok = false ∨ start_ok = false) :
    (restart_output_stream app (some d) ctor_ok start_ok h).1.output_stream
        = none
    ∧ (restart_output_stream app (some d) ctor_ok start_ok h).2 = true
    ∧ (restart_output_stream app (some d) ctor_ok start_ok h).1.input_strips
        = app.input_strips := by
  rcases hfail with hf | hf <;> subst hf
  · cases start_ok <;> exact ⟨rfl, rfl, rfl⟩
  · cases ctor_ok <;> exact ⟨rfl, rfl, rfl⟩

/-- Witness for C9: a concrete failed playback open on a two-strip app. -/
theorem restart_output_failure_state_witness :
    (restart_output_stream failApp (some 2) false true 9).1.output_stream
        = none
    ∧ (restart_output_stream failApp (some 2) false true 9).2 = true
    ∧ (restart_output_stream failApp (some 2) false true 9).1.input_strips
        = failApp.input_strips :=
  restart_output_failure_state failApp 2 9 false true (Or.inl rfl)

/-- C10: an inactive-or-empty channel's silence chunk has the fixed shape
`BLOCK_SIZE × CHANNELS` regardless of the requested frame count, so in a
callback requesting `frames ≠ BLOCK_SIZE` that chunk fails the size check
and the channel contributes nothing at all to the written output. -/
theorem silence_chunk_fixed_shape (s : AudioInputStrip)
    (strips : List AudioInputStrip) (frames : ℕ)
    (hs : s.is_active = false ∨ s.audio_queue = []) :
    (get_audio_chunk s).2 = silence BLOCK_SIZE CHANNELS
    ∧ (get_audio_chunk s).2.length = BLOCK_SIZE
    ∧ (frames ≠ BLOCK_SIZE →
        (output_callback (strips ++ [s]) frames).2
          = (output_callback strips frames).2) := by
  have hchunk : (get_audio_chunk s).2 = silence BLOCK_SIZE CHANNELS := by
    rcases hs with h | h <;> simp [get_audio_chunk, h]
  refine ⟨hchunk, by rw [hchunk, length_silence], ?_⟩
  intro hne
  rw [mixed_block_eq, mixed_block_eq]
  have hc : chunksOf (strips ++ [s])
      = chunksOf strips ++ [(get_audio_chunk s).2] := by
    simp [chunksOf]
  rw [hc, List.foldl_append, List.foldl_cons, List.foldl_nil]
  congr 1
  rw [hchunk, mixStep, if_neg]
  rw [length_silence, length_foldl_mixStep, length_silence]
  omega

/-- Witness for C10: a fresh inactive strip in a callback requesting 1
frame — its 1024-frame silence chunk is skipped, leaving the output equal
to that of a pass with no strips at all. -/
theorem silence_chunk_fixed_shape_witness :
    (get_audio_chunk (newStrip 3)).2 = silence BLOCK_SIZE CHANNELS
    ∧ (get_audio_chunk (newStrip 3)).2.length = BLOCK_SIZE
    ∧ (output_callback ([] ++ [newStrip 3]) 1).2
        = (output_callback [] 1).2 := by
  have h := silence_chunk_fixed_shape (newStrip 3) [] 1 (Or.inl rfl)
  exact ⟨h.1, h.2.1, h.2.2 (by decide)⟩
